import Mathlib

/-!
Verification of the gRPC-Web client transport in
`packages/connect-web/src/connect-transport.ts`.

Byte streams are modelled as lists of byte chunks (`List (List Nat)`), a
chunk being what one `reader.read()` resolves with.  JavaScript strings are
modelled as Lean `String`s, JS numbers occurring here as `Nat`/`Int` with
the 32-bit conversions written out explicitly.
-/

namespace ConnectWeb

/-- A byte, kept as `Nat`; all producers stay below 256. -/
abbrev Byte := Nat

/-- ECMAScript `ToInt32`: reduce an integer into `[-2^31, 2^31)`. -/
def jsToInt32 (n : Int) : Int :=
  (n + 2 ^ 31) % 2 ^ 32 - 2 ^ 31

/-- JS `x << 8` on a 32-bit integer: `ToInt32` of both sides, wrapping. -/
def jsShl8 (x : Int) : Int :=
  jsToInt32 (x * 256)

/-- Resolve a possibly negative `TypedArray` index relative to `len`,
clamping into `[0, len]` (the rule `subarray` uses for its arguments). -/
def relIndex (len : Nat) (i : Int) : Nat :=
  (min (max (if i < 0 then (len : Int) + i else i) 0) (len : Int)).toNat

/-- `TypedArray.subarray(a, b)` on a byte list. -/
def jsSubarray (l : List Byte) (a b : Int) : List Byte :=
  (l.take (relIndex l.length b)).drop (relIndex l.length a)

/-- `TypedArray.subarray(a)` on a byte list. -/
def jsSubarrayFrom (l : List Byte) (a : Int) : List Byte :=
  l.drop (relIndex l.length a)

/-- Structured error details carried by a `Status`: a type URL plus opaque
bytes (the `Any` payloads). -/
abbrev Detail := String × List Byte

/-- `ConnectError` as observed through this module: a message, a gRPC
status code and optional details.

Modelled from the spec: `connect-error.ts` is not under `src/`; the spec
describes `TransportError{code, message, details?}` and leaves the code of
a bare `new ConnectError(message)` unspecified, so the canonical default
`Unknown = 2` is used for that constructor form. -/
structure ConnectError where
  message : String
  code : Int
  details : List Detail
deriving DecidableEq

/-- `new ConnectError(message)` with the default (unspecified) code. -/
def connectErrorOfString (s : String) : ConnectError :=
  ⟨s, 2, []⟩

/-- The error thrown by the deframer at a premature end of stream
(`StatusCode.DataLoss = 15`). -/
def prematureEof : ConnectError :=
  ⟨"premature end of response body", 15, []⟩

/-- A deframed frame: the tagged union `DataFrame | TrailerFrame`. -/
inductive Frame where
  | data (payload : List Byte)
  | trailer (payload : List Byte)
deriving DecidableEq

/-- The big-endian length parse of `readDataFrame`
(`for (i = 1; i < 5; i++) dataLength = (dataLength << 8) + buffer[i]`),
with the JS signed 32-bit shift written out. -/
def parseDataLength (buf : List Byte) : Int :=
  let step : Int → Byte → Int := fun acc b => jsShl8 acc + (b : Int)
  step (step (step (step 0 (buf.getD 1 0)) (buf.getD 2 0)) (buf.getD 3 0)) (buf.getD 4 0)

/-- `readDataFrame` of `createFrameReader`: loop reading chunks; once the
buffer holds at least 5 bytes parse the length `L`; break as soon as the
buffer holds at least `L` bytes (this is the source's literal condition
`buffer.byteLength >= dataLength`); then slice `subarray(5, 5 + L)` as the
payload, keeping `subarray(5 + L)` as the new buffer.  A `done` read
before the break throws `prematureEof`.  Returns
(payload, new buffer, unread chunks). -/
def readDataFrame (buf : List Byte) (dl0 : Option Int) (chunks : List (List Byte)) :
    Except ConnectError (List Byte × List Byte × List (List Byte)) :=
  let dl := if dl0 = none ∧ 5 ≤ buf.length then some (parseDataLength buf) else dl0
  match chunks with
  | [] =>
    match dl with
    | some l =>
      if (buf.length : Int) ≥ l then
        .ok (jsSubarray buf 5 (5 + l), jsSubarrayFrom buf (5 + l), [])
      else .error prematureEof
    | none => .error prematureEof
  | c :: rest =>
    match dl with
    | some l =>
      if (buf.length : Int) ≥ l then
        .ok (jsSubarray buf 5 (5 + l), jsSubarrayFrom buf (5 + l), c :: rest)
      else readDataFrame (buf ++ c) (some l) rest
    | none => readDataFrame (buf ++ c) none rest

/-- `readTrailerFrame`: read chunks until the stream is done, then take
`subarray(5)` of the accumulator as the trailer payload. -/
def readTrailerData (buf : List Byte) (chunks : List (List Byte)) : List Byte :=
  (buf ++ chunks.flatten).drop 5

/-- `readFrame` of `createFrameReader`: dispatch on the first buffered
byte (`0x00` data, `0x80` trailer), otherwise keep reading chunks; a
`done` read in this loop throws `prematureEof`.  Returns
(frame, new buffer, unread chunks); after a trailer frame the buffer is
reset to empty and the stream is exhausted. -/
def readFrame (buf : List Byte) (chunks : List (List Byte)) :
    Except ConnectError (Frame × List Byte × List (List Byte)) :=
  if 0 < buf.length ∧ buf.headD 0 = 0x00 then
    (readDataFrame buf none chunks).map fun r => (Frame.data r.1, r.2.1, r.2.2)
  else if 0 < buf.length ∧ buf.headD 0 = 0x80 then
    .ok (Frame.trailer (readTrailerData buf chunks), [], [])
  else
    match chunks with
    | [] => .error prematureEof
    | c :: rest => readFrame (buf ++ c) rest

/-- JS `x >>> 8` as used on the (nonnegative) running length in `send`:
convert to `Uint32`, then shift right by 8. -/
def jsShrU8 (n : Nat) : Nat :=
  n % 2 ^ 32 / 256

/-- The DATA-frame encoding done by `send`: one `0x00` type byte, four
big-endian length bytes produced by the
`body[i] = dataLength % 256; dataLength >>>= 8` loop, then the payload. -/
def encodeDataFrame (data : List Byte) : List Byte :=
  let n0 := data.length
  let n1 := jsShrU8 n0
  let n2 := jsShrU8 n1
  let n3 := jsShrU8 n2
  [0x00, n3 % 256, n2 % 256, n1 % 256, n0 % 256] ++ data

/-- A TRAILER frame as a server produces it.

Modelled from the spec: trailer frames are only read by this repository;
per §4.1/I5 the layout is one `0x80` type byte, a 4-byte big-endian
length field, then the payload. -/
def trailerFrame (t : List Byte) : List Byte :=
  [0x80, t.length / 2 ^ 24 % 256, t.length / 2 ^ 16 % 256,
    t.length / 2 ^ 8 % 256, t.length % 256] ++ t

/-- Big-endian decoding of a byte list, used to state the spec's
"bytes 1..4 decoded big-endian" properties. -/
def beDecode (l : List Byte) : Nat :=
  l.foldl (fun acc b => acc * 256 + b) 0

/-- A header map, as a list of (name, value) pairs in insertion order.
Name lookups are case-insensitive, as with the JS `Headers` class. -/
abbrev HeadersL := List (String × String)

/-- ASCII lowercasing of one character (header names are ASCII). -/
def lowerChar (c : Char) : Char :=
  if 'A' ≤ c ∧ c ≤ 'Z' then Char.ofNat (c.toNat + 32) else c

/-- ASCII lowercasing of a header name. -/
def lowerStr (s : String) : String :=
  ⟨s.data.map lowerChar⟩

/-- Join several values of one header name, as `Headers.get` does. -/
def joinValues : List String → String
  | [] => ""
  | [v] => v
  | v :: rest => v ++ ", " ++ joinValues rest

/-- `Headers.get(name)`: `null` when the name is absent, otherwise the
comma-joined values, matching names case-insensitively. -/
def headersGet (h : HeadersL) (name : String) : Option String :=
  match (h.filter fun p => lowerStr p.1 = lowerStr name).map Prod.snd with
  | [] => none
  | vs => some (joinValues vs)

/-- `Headers.append(name, value)`: add one more value for the name. -/
def headersAppend (h : HeadersL) (name value : String) : HeadersL :=
  h ++ [(name, value)]

/-- `Headers.set(name, value)`: drop all values of the name, then add the
new one. -/
def headersSet (h : HeadersL) (name value : String) : HeadersL :=
  (h.filter fun p => ¬lowerStr p.1 = lowerStr name) ++ [(name, value)]

/-- The value of a hexadecimal digit, if the character is one. -/
def hexDigit (c : Char) : Option Nat :=
  if '0' ≤ c ∧ c ≤ '9' then some (c.toNat - 48)
  else if 'a' ≤ c ∧ c ≤ 'f' then some (c.toNat - 87)
  else if 'A' ≤ c ∧ c ≤ 'F' then some (c.toNat - 70)
  else none

/-- Decode `%HH` escapes in a character list; a `%` not followed by two
hex digits is kept verbatim. -/
def percentDecodeChars : List Char → List Char
  | '%' :: a :: b :: rest =>
    match hexDigit a, hexDigit b with
    | some x, some y => Char.ofNat (16 * x + y) :: percentDecodeChars rest
    | _, _ => '%' :: percentDecodeChars (a :: b :: rest)
  | c :: rest => c :: percentDecodeChars rest
  | [] => []

/-- `percentDecodeHeader` applied to `grpc-message` values.

Modelled from the spec: `http-headers.ts` is not under `src/`; per the
spec's glossary percent-decoding reverses the `%HH` escapes of a header
value. -/
def percentDecodeHeader (s : String) : String :=
  ⟨percentDecodeChars s.data⟩

/-- The value of a decimal digit, if the character is one. -/
def decDigit (c : Char) : Option Nat :=
  if '0' ≤ c ∧ c ≤ '9' then some (c.toNat - 48) else none

/-- The longest run of digits of the given radix at the head of `cs`,
read as an integer with the given sign; `none` when there is no digit
(`NaN`).  Trailing non-digit characters are ignored. -/
def parseDigitRun (digit : Char → Option Nat) (radix : Nat) (sign : Int)
    (cs : List Char) : Option Int :=
  let ds := cs.takeWhile fun c => (digit c).isSome
  if ds = [] then none
  else some (sign * (ds.foldl (fun acc c => acc * radix + (digit c).getD 0) 0 : Nat))

/-- JS `parseInt(value)` with no radix argument, per ECMAScript: skip
leading whitespace, take an optional sign, then — after a `0x`/`0X`
prefix — parse the longest run of hexadecimal digits in base 16, and
otherwise the longest run of decimal digits in base 10; `none` is
`NaN`. -/
def jsParseInt (s : String) : Option Int :=
  let cs := s.data.dropWhile Char.isWhitespace
  let signAndRest : Int × List Char :=
    match cs with
    | '-' :: rest => (-1, rest)
    | '+' :: rest => (1, rest)
    | _ => (1, cs)
  match signAndRest.2 with
  | '0' :: 'x' :: rest => parseDigitRun hexDigit 16 signAndRest.1 rest
  | '0' :: 'X' :: rest => parseDigitRun hexDigit 16 signAndRest.1 rest
  | cs1 => parseDigitRun decDigit 10 signAndRest.1 cs1

/-- "Parse as a base-10 integer", the original claim's words: JS
`parseInt(value, 10)`, with no hexadecimal prefix detection.  Used only
to state what the claim demands where it differs from the code's bare
`parseInt(value)`. -/
def jsParseIntBase10 (s : String) : Option Int :=
  let cs := s.data.dropWhile Char.isWhitespace
  let signAndRest : Int × List Char :=
    match cs with
    | '-' :: rest => (-1, rest)
    | '+' :: rest => (1, rest)
    | _ => (1, cs)
  parseDigitRun decDigit 10 signAndRest.1 signAndRest.2

/-- Names of the canonical gRPC status codes, indexed by their value:
the reverse lookup `StatusCode[n]` of the status-code enumeration.

Modelled from the spec: `status-code.ts` is not under `src/`; per the
spec the recognized `StatusCode` values are the canonical codes 0..16. -/
def statusCodeName (n : Int) : Option String :=
  if n = 0 then some "Ok"
  else if n = 1 then some "Canceled"
  else if n = 2 then some "Unknown"
  else if n = 3 then some "InvalidArgument"
  else if n = 4 then some "DeadlineExceeded"
  else if n = 5 then some "NotFound"
  else if n = 6 then some "AlreadyExists"
  else if n = 7 then some "PermissionDenied"
  else if n = 8 then some "ResourceExhausted"
  else if n = 9 then some "FailedPrecondition"
  else if n = 10 then some "Aborted"
  else if n = 11 then some "OutOfRange"
  else if n = 12 then some "Unimplemented"
  else if n = 13 then some "Internal"
  else if n = 14 then some "Unavailable"
  else if n = 15 then some "DataLoss"
  else if n = 16 then some "Unauthenticated"
  else none

/-- `codeFromHttpStatus`.

Modelled from the spec: `status-code.ts` is not under `src/`; this is the
spec's fixed HTTP-status table (200 to Ok, 400 to Internal, 401 to
Unauthenticated, 403 to PermissionDenied, 404 to Unimplemented,
429/502/503/504 to Unavailable, all others to Unknown). -/
def codeFromHttpStatus (status : Nat) : Int :=
  if status = 200 then 0
  else if status = 400 then 13
  else if status = 401 then 16
  else if status = 403 then 7
  else if status = 404 then 12
  else if status = 429 ∨ status = 502 ∨ status = 503 ∨ status = 504 then 14
  else 2

/-- The `Status` protobuf message carried by `grpc-status-details-bin`. -/
structure StatusPb where
  code : Int
  message : String
  details : List Detail
deriving DecidableEq

/-- The result of `parseBinaryHeader(value, Status)`: base64-decoding plus
protobuf parsing, an external collaborator of this module; a call is kept
abstract as a function argument `parseBin`, `.error` standing for a thrown
exception. -/
abbrev ParseBin := String → Except Unit StatusPb

/-- An HTTP `Response` as read by this module. -/
structure HttpResponse where
  status : Nat
  headers : HeadersL
  body : Option (List (List Byte))

/-- `extractHttpStatusError`: map the HTTP status to a code; `Ok` is no
error, anything else an error with the percent-decoded `grpc-message`. -/
def extractHttpStatusError (resp : HttpResponse) : Option ConnectError :=
  let code := codeFromHttpStatus resp.status
  if code = 0 then none
  else some ⟨percentDecodeHeader ((headersGet resp.headers "grpc-message").getD ""), code, []⟩

/-- `extractHeadersError`: interpret the `grpc-status` header, treating an
unrecognized value (`StatusCode[code] === undefined`, `NaN` included) as
`DataLoss`, and otherwise reporting the percent-decoded `grpc-message`. -/
def extractHeadersError (h : HeadersL) : Option ConnectError :=
  match headersGet h "grpc-status" with
  | none => none
  | some v =>
    let code := jsParseInt v
    if code = some 0 then none
    else if (code.bind statusCodeName) = none then
      some ⟨"invalid grpc-status: " ++ v, 15, []⟩
    else
      some ⟨percentDecodeHeader ((headersGet h "grpc-message").getD ""), code.getD 0, []⟩

/-- `extractDetailsError`: parse `grpc-status-details-bin` when present,
preferring its protobuf-encoded `Status` to the textual headers; a parse
failure becomes a generic error. -/
def extractDetailsError (parseBin : ParseBin) (h : HeadersL) : Option ConnectError :=
  match headersGet h "grpc-status-details-bin" with
  | none => none
  | some v =>
    match parseBin v with
    | .error _ => some (connectErrorOfString "invalid grpc-status-details-bin")
    | .ok st => if st.code = 0 then none else some ⟨st.message, st.code, st.details⟩

/-- Trim leading and trailing whitespace from a character list. -/
def trimChars (cs : List Char) : List Char :=
  ((cs.dropWhile Char.isWhitespace).reverse.dropWhile Char.isWhitespace).reverse

/-- Split a character list on the literal sequence CRLF. -/
def splitCRLF : List Char → List (List Char)
  | [] => [[]]
  | '\r' :: '\n' :: rest => [] :: splitCRLF rest
  | c :: rest =>
    match splitCRLF rest with
    | [] => [[c]]
    | l :: ls => (c :: l) :: ls

/-- One line of a trailer block: take the text before the first `:` (at a
positive index) as the name and the text after it as the value, both
trimmed; lines without such a `:` are dropped. -/
def parseTrailerLine (line : List Char) : Option (String × String) :=
  match line.findIdx? (· = ':') with
  | none => none
  | some i =>
    if 0 < i then
      some (⟨trimChars (line.take i)⟩, ⟨trimChars (line.drop (i + 1))⟩)
    else none

/-- `parseTrailerFrame`: view the payload bytes as text, split on CRLF,
skip empty lines and append each parsed `name: value` line. -/
def parseTrailerFrame (data : List Byte) : HeadersL :=
  let lines := splitCRLF (data.map Char.ofNat)
  (lines.filter fun l => ¬l = []).foldl
    (fun acc l =>
      match parseTrailerLine l with
      | some (n, v) => headersAppend acc n v
      | none => acc)
    []

/-- The URL built by `createRequest`: the base URL with one trailing slash
stripped, then `/serviceTypeName/methodName`.  `substring(0, length - 1)`
and `endsWith("/")` are written out on the character list. -/
def createRequestUrl (baseUrl serviceTypeName methodName : String) : String :=
  let b := if baseUrl.data.getLast? = some '/' then
      (⟨baseUrl.data.take (baseUrl.data.length - 1)⟩ : String)
    else baseUrl
  b ++ "/" ++ serviceTypeName ++ "/" ++ methodName

/-- The three unconditional request headers. -/
def defaultRequestHeaders : HeadersL :=
  [("Content-Type", "application/grpc-web+proto"),
   ("X-Grpc-Web", "1"),
   ("X-User-Agent", "@bufbuild/connect-web")]

/-- `createRequestHeaders`: start from the three defaults, apply each of
the caller's headers with `set`, then — when a timeout is given — `set`
`grpc-timeout` to `<timeout>m`. -/
def createRequestHeaders (callerHeaders : HeadersL) (timeout : Option Nat) : HeadersL :=
  let h := callerHeaders.foldl (fun acc p => headersSet acc p.1 p.2) defaultRequestHeaders
  match timeout with
  | some t => headersSet h "grpc-timeout" (Nat.repr t ++ "m")
  | none => h

/-- The error extraction run when the response headers arrive:
`extractDetailsError ?? extractHeadersError ?? extractHttpStatusError`. -/
def responseErrAtHeaders (parseBin : ParseBin) (resp : HttpResponse) : Option ConnectError :=
  match extractDetailsError parseBin resp.headers with
  | some e => some e
  | none =>
    match extractHeadersError resp.headers with
    | some e => some e
    | none => extractHttpStatusError resp

/-- The error extraction run on a parsed trailer:
`extractDetailsError ?? extractHeadersError`. -/
def responseErrAtTrailer (parseBin : ParseBin) (trailer : HeadersL) : Option ConnectError :=
  match extractDetailsError parseBin trailer with
  | some e => some e
  | none => extractHeadersError trailer

/-- The per-call collaborators of `createResponse`: the response message
schema's `fromBinary` (with its type name, for the failure message),
`parseBinaryHeader` and the resolved HTTP response.  Decoded messages are
kept as the byte lists `fromBinary` maps payloads to; `.error` stands for
a thrown deserialization exception. -/
structure CallContext where
  typeName : String
  fromBinary : List Byte → Except String (List Byte)
  parseBin : ParseBin
  response : HttpResponse

/-- The mutable state closed over by `createResponse`: the `isRead` and
`isReading` flags plus the frame reader once constructed, the reader's
own state being its (buffer, unread chunks) pair. -/
structure RespState where
  isRead : Bool
  isReading : Bool
  reader : Option (List Byte × List (List Byte))
deriving DecidableEq

/-- The state of a `ClientResponse` before its first `receive`. -/
def initState : RespState :=
  ⟨false, false, none⟩

/-- One handler callback. -/
inductive Event where
  | header (h : HeadersL)
  | message (m : List Byte)
  | trailer (t : HeadersL)
  | close (e : Option ConnectError)
deriving DecidableEq

/-- The part of `receive` that runs one `readFrame()` call and handles the
resulting frame: a DATA frame is deserialized and delivered through
`onMessage` (the call stays open), a TRAILER frame is parsed and delivered
through `onTrailer` followed by `close` with the trailer's extracted
error; reader failures and deserialization failures `close` with the
error.  `pre` carries callbacks already delivered earlier in this same
`receive` invocation. -/
def processFrame (ctx : CallContext) (pre : List Event) (buf : List Byte)
    (chunks : List (List Byte)) : List Event × RespState :=
  match readFrame buf chunks with
  | .error e => (pre ++ [.close (some e)], ⟨true, false, some (buf, chunks)⟩)
  | .ok (.data payload, buf', chunks') =>
    match ctx.fromBinary payload with
    | .ok m => (pre ++ [.message m], ⟨false, false, some (buf', chunks')⟩)
    | .error s =>
      (pre ++ [.close (some (connectErrorOfString
          ("failed to deserialize message " ++ ctx.typeName ++ ": " ++ s)))],
        ⟨true, false, some (buf', chunks')⟩)
  | .ok (.trailer payload, buf', chunks') =>
    let trailer := parseTrailerFrame payload
    (pre ++ [.trailer trailer, .close (responseErrAtTrailer ctx.parseBin trailer)],
      ⟨true, false, some (buf', chunks')⟩)

/-- One `receive` invocation of `createResponse`, returning the callbacks
it delivers (in order) and the state it leaves behind.  An already-read
response closes with "response already read"; on the first pass the
headers are delivered, the header-phase errors checked and the frame
reader constructed; then one frame is read and handled. -/
def receive (ctx : CallContext) (st : RespState) : List Event × RespState :=
  if st.isRead then
    ([.close (some (connectErrorOfString "response already read"))], ⟨true, false, st.reader⟩)
  else if st.isReading then
    ([.close (some (connectErrorOfString "cannot read response concurrently"))],
      ⟨true, false, st.reader⟩)
  else
    match st.reader with
    | some (buf, chunks) => processFrame ctx [] buf chunks
    | none =>
      let pre := [Event.header ctx.response.headers]
      match responseErrAtHeaders ctx.parseBin ctx.response with
      | some e => (pre ++ [.close (some e)], ⟨true, false, none⟩)
      | none =>
        match ctx.response.body with
        | none =>
          (pre ++ [.close (some (connectErrorOfString "missing response body"))],
            ⟨true, false, none⟩)
        | some chunks => processFrame ctx pre [] chunks

/-- Repeatedly invoke `receive` (as a well-behaved unary caller does)
until the call closes or the fuel runs out; returns the concatenated
callback sequence and whether the call reached its close. -/
def drive (ctx : CallContext) : Nat → RespState → List Event × Bool
  | 0, _ => ([], false)
  | fuel + 1, st =>
    let r := receive ctx st
    if r.2.isRead then (r.1, true)
    else ((r.1 ++ (drive ctx fuel r.2).1, (drive ctx fuel r.2).2))

/-- A whole call's callback sequence, starting from the fresh state. -/
def runCall (ctx : CallContext) (fuel : Nat) : List Event × Bool :=
  drive ctx fuel initState

/-- Matches `on-message* on-trailer? on-close`. -/
def midClose : List Event → Bool
  | [.close _] => true
  | [.trailer _, .close _] => true
  | .message _ :: rest => midClose rest
  | _ => false

/-- Matches `on-header on-message* on-trailer? on-close`. -/
def matchesCallbackPattern : List Event → Bool
  | .header _ :: rest => midClose rest
  | _ => false

/-- Matches `on-message? on-trailer? on-close`. -/
def midCloseClaim : List Event → Bool
  | [.close _] => true
  | [.trailer _, .close _] => true
  | [.message _, .close _] => true
  | [.message _, .trailer _, .close _] => true
  | _ => false

/-- Matches the claimed regular expression
`on-header on-message? on-trailer? on-close`. -/
def matchesClaimedPattern : List Event → Bool
  | .header _ :: rest => midCloseClaim rest
  | _ => false

/-- Whether an integer is a recognized `StatusCode` value, i.e. one of
the canonical codes 0..16. -/
def isRecognizedStatusCode (n : Int) : Bool :=
  0 ≤ n && n ≤ 16

/-- Textual status extraction as the amended claim words it: no
`grpc-status` header means no error; a value parsing (per JS `parseInt`,
hex prefix included) to `Ok` means no error; a parsed integer outside the
recognized codes 0..16 — an unparseable value included — is a `DataLoss`
error naming the invalid value; otherwise an error with that code and the
percent-decoded `grpc-message` (empty when absent) as message. -/
def specTextualStatus (h : HeadersL) : Option ConnectError :=
  match headersGet h "grpc-status" with
  | none => none
  | some v =>
    match jsParseInt v with
    | none => some ⟨"invalid grpc-status: " ++ v, 15, []⟩
    | some k =>
      if k = 0 then none
      else if isRecognizedStatusCode k then
        some ⟨percentDecodeHeader ((headersGet h "grpc-message").getD ""), k, []⟩
      else some ⟨"invalid grpc-status: " ++ v, 15, []⟩

/-- The value a sequence of caller headers leaves for a name when each
pair is applied with `set` in order: the last value with a
case-insensitively matching name. -/
def lastCallerValue : HeadersL → String → Option String
  | [], _ => none
  | p :: rest, n =>
    match lastCallerValue rest n with
    | some v => some v
    | none => if lowerStr p.1 = lowerStr n then some p.2 else none

/-! ## Theorems -/

/-- C1.  The claim says DATA mode keeps reading until the accumulator
holds at least `5 + L` bytes and fails with `DataLoss` when the stream
ends earlier.  The code's loop condition is `buffer.byteLength >=
dataLength`, without the 5 header bytes: with the accumulator
`[0,0,0,0,2,7]` (`L = 2`, 6 bytes buffered, `5 + L = 7` not yet reached)
it stops at once, returns the truncated payload `[7]` while a further
chunk `[8]` is still unread, and at end-of-stream it likewise returns
success instead of `DataLoss`. -/
theorem readDataFrame_stops_at_L_bytes :
    readDataFrame [0, 0, 0, 0, 2, 7] none [[8]] = .ok ([7], [], [[8]]) ∧
    readDataFrame [0, 0, 0, 0, 2, 7] none [] = .ok ([7], [], []) := ⟨rfl, rfl⟩

/-- C2.  Deframing `encodeDataFrame [7, 8] ++ trailerFrame []` is NOT
chunking-independent: split after the sixth byte, the first frame comes
back as `DATA [7]` instead of `DATA [7, 8]`, refuting the round-trip
claim for this chunking. -/
theorem deframe_roundtrip_chunking_counterexample :
    [[0, 0, 0, 0, 2, 7], [8, 0x80, 0, 0, 0, 0]].flatten =
      encodeDataFrame [7, 8] ++ trailerFrame [] ∧
    readFrame [] [[0, 0, 0, 0, 2, 7], [8, 0x80, 0, 0, 0, 0]] =
      .ok (.data [7], [], [[8, 0x80, 0, 0, 0, 0]]) := ⟨rfl, rfl⟩

/-- C3.  For a payload whose length fits in 32 bits, the encoded DATA
frame is 5 bytes longer than the payload, starts with the `0x00` type
byte, carries the payload length big-endian in bytes 1..4, and ends with
the payload verbatim. -/
theorem encodeDataFrame_spec (data : List Byte) (h : data.length < 2 ^ 32) :
    (encodeDataFrame data).length = data.length + 5 ∧
    (encodeDataFrame data).headD 0 = 0x00 ∧
    beDecode (((encodeDataFrame data).drop 1).take 4) = data.length ∧
    (encodeDataFrame data).drop 5 = data := by
  refine ⟨?_, ?_, ?_, ?_⟩
  · simp [encodeDataFrame]
  · simp [encodeDataFrame]
  · simp only [encodeDataFrame, beDecode, jsShrU8, List.foldl, List.cons_append,
      List.drop_succ_cons, List.drop_zero, List.take_succ_cons, List.take_zero]
    omega
  · simp [encodeDataFrame]

/-- C3 witness: the theorem evaluated at the payload `[7, 8, 9]`. -/
theorem encodeDataFrame_spec_witness :
    ([7, 8, 9] : List Byte).length < 2 ^ 32 ∧
      ((encodeDataFrame [7, 8, 9]).length = 8 ∧
       (encodeDataFrame [7, 8, 9]).headD 0 = 0x00 ∧
       beDecode (((encodeDataFrame [7, 8, 9]).drop 1).take 4) = 3 ∧
       (encodeDataFrame [7, 8, 9]).drop 5 = [7, 8, 9]) :=
  ⟨by decide, encodeDataFrame_spec [7, 8, 9] (by decide)⟩

/-- The reverse status-code lookup fails outside the canonical range. -/
theorem statusCodeName_eq_none (k : Int) (hk : ¬(0 ≤ k ∧ k ≤ 16)) :
    statusCodeName k = none := by
  unfold statusCodeName
  repeat rw [if_neg (by omega)]

/-- The reverse status-code lookup succeeds on the canonical range. -/
theorem statusCodeName_eq_some (k : Int) (hk : 0 ≤ k ∧ k ≤ 16) :
    ∃ s, statusCodeName k = some s := by
  obtain ⟨h0, h16⟩ := hk
  interval_cases k <;> exact ⟨_, rfl⟩

/-- C4 counterexample.  `extractHeadersError` calls the bare JS
`parseInt`, which detects a `0x` hexadecimal prefix: at
`grpc-status: "0x3"` the code parses 3 and returns a code-3 error
carrying the percent-decoded `grpc-message`, while the claim's base-10
parse of `"0x3"` yields 0 (`Ok`) and so demands no error (and under the
unparseable reading would demand a `DataLoss` (15) error). -/
theorem extractHeadersError_hex_prefix_counterexample :
    jsParseIntBase10 "0x3" = some 0 ∧
    jsParseInt "0x3" = some 3 ∧
    extractHeadersError [("grpc-status", "0x3"), ("grpc-message", "m")] =
      some ⟨"m", 3, []⟩ := ⟨rfl, rfl, rfl⟩

/-- C4 amended.  `extractHeadersError` behaves exactly as the claim
describes once "parses as a base-10 integer" is read as the code's bare
JS `parseInt` (base 10 with automatic `0x`/`0X` hex-prefix detection):
absent `grpc-status` or a value parsing to `Ok` yield no error, an
unrecognized parsed value — an unparseable one included — yields
`DataLoss` with a message naming it, and a recognized non-`Ok` value
yields that code with the percent-decoded `grpc-message` (empty when
absent) as message. -/
theorem extractHeadersError_eq_spec (h : HeadersL) :
    extractHeadersError h = specTextualStatus h := by
  unfold extractHeadersError specTextualStatus
  cases hv : headersGet h "grpc-status" with
  | none => rfl
  | some v =>
    dsimp only
    cases hp : jsParseInt v with
    | none => simp
    | some k =>
      dsimp only
      by_cases hk : k = 0
      · subst hk; simp
      · rw [if_neg (by simp [hk]), if_neg hk]
        by_cases hr : 0 ≤ k ∧ k ≤ 16
        · obtain ⟨s, hs⟩ := statusCodeName_eq_some k hr
          have hb : isRecognizedStatusCode k = true := by
            simp only [isRecognizedStatusCode, Bool.and_eq_true, decide_eq_true_eq]
            omega
          rw [hb]
          simp [hs]
        · have hn := statusCodeName_eq_none k hr
          have hb : ¬isRecognizedStatusCode k = true := by
            simp only [isRecognizedStatusCode, Bool.and_eq_true, decide_eq_true_eq]
            omega
          rw [if_neg hb]
          simp [hn]

/-- C5.  The error extraction at response-header arrival tries binary
details, then textual status, then HTTP status, and at trailer arrival
binary details then textual status, the first error winning; in
particular a `grpc-status-details-bin` header parsing to a non-`Ok`
`Status` determines the observed error at both points, whatever the
`grpc-status` header says. -/
theorem extractError_precedence (parseBin : ParseBin) (resp : HttpResponse) :
    (responseErrAtHeaders parseBin resp =
      ((extractDetailsError parseBin resp.headers).orElse fun _ =>
        (extractHeadersError resp.headers).orElse fun _ => extractHttpStatusError resp)) ∧
    (∀ t, responseErrAtTrailer parseBin t =
      ((extractDetailsError parseBin t).orElse fun _ => extractHeadersError t)) ∧
    (∀ v s, headersGet resp.headers "grpc-status-details-bin" = some v →
      parseBin v = .ok s → ¬s.code = 0 →
        responseErrAtHeaders parseBin resp = some ⟨s.message, s.code, s.details⟩ ∧
        responseErrAtTrailer parseBin resp.headers = some ⟨s.message, s.code, s.details⟩) := by
  refine ⟨?_, ?_, ?_⟩
  · unfold responseErrAtHeaders
    cases extractDetailsError parseBin resp.headers <;>
      cases extractHeadersError resp.headers <;> rfl
  · intro t
    unfold responseErrAtTrailer
    cases extractDetailsError parseBin t <;> rfl
  · intro v s hv hs hcode
    have hdet : extractDetailsError parseBin resp.headers =
        some ⟨s.message, s.code, s.details⟩ := by
      unfold extractDetailsError
      rw [hv]
      dsimp only
      rw [hs]
      dsimp only
      rw [if_neg hcode]
    exact ⟨by unfold responseErrAtHeaders; rw [hdet],
      by unfold responseErrAtTrailer; rw [hdet]⟩

/-- C5 witness: a trailer carrying both `grpc-status: 2` and binary
details decoding to `Status(code 7, "denied")` surfaces code 7. -/
theorem extractError_precedence_witness :
    headersGet [("grpc-status-details-bin", "x"), ("grpc-status", "2")]
        "grpc-status-details-bin" = some "x" ∧
    ¬(7 : Int) = 0 ∧
    responseErrAtHeaders (fun _ => .ok ⟨7, "denied", []⟩)
        ⟨200, [("grpc-status-details-bin", "x"), ("grpc-status", "2")], none⟩ =
      some ⟨"denied", 7, []⟩ ∧
    responseErrAtTrailer (fun _ => .ok ⟨7, "denied", []⟩)
        [("grpc-status-details-bin", "x"), ("grpc-status", "2")] =
      some ⟨"denied", 7, []⟩ := by
  refine ⟨rfl, by decide, ?_⟩
  exact (extractError_precedence (fun _ => .ok ⟨7, "denied", []⟩)
    ⟨200, [("grpc-status-details-bin", "x"), ("grpc-status", "2")], none⟩).2.2
    "x" ⟨7, "denied", []⟩ rfl rfl (by decide)

/-- C6 counterexample.  A first `receive` that surfaces a DATA frame
leaves `isRead` false, and the next `receive` on the same response
delivers the trailer and a `close` with no error — not the claimed
"response already read": the claim only holds once a `receive` has
actually closed the response. -/
theorem second_receive_not_always_already_read :
    receive ⟨"T", fun b => .ok b, fun _ => .error (),
        ⟨200, [], some [[0, 0, 0, 0, 0, 0x80, 0, 0, 0, 0]]⟩⟩ initState =
      ([.header [], .message []], ⟨false, false, some ([0x80, 0, 0, 0, 0], [])⟩) ∧
    (receive ⟨"T", fun b => .ok b, fun _ => .error (),
        ⟨200, [], some [[0, 0, 0, 0, 0, 0x80, 0, 0, 0, 0]]⟩⟩
        ⟨false, false, some ([0x80, 0, 0, 0, 0], [])⟩).1 =
      [.trailer [], .close none] := ⟨rfl, rfl⟩

/-- C6 amended.  Once a `receive` has closed the response (the `isRead`
flag is set, which only `close` does), every further `receive` delivers
exactly one `close` carrying the error "response already read" — no
`on-header`, no `on-message`. -/
theorem receive_when_closed_already_read (ctx : CallContext) (st : RespState)
    (hread : st.isRead = true) :
    receive ctx st =
      ([.close (some ⟨"response already read", 2, []⟩)], ⟨true, false, st.reader⟩) := by
  unfold receive
  rw [hread]
  rfl

/-- C6 witness: the amended theorem at a closed state. -/
theorem receive_when_closed_already_read_witness :
    receive ⟨"T", fun b => .ok b, fun _ => .error (), ⟨200, [], none⟩⟩
        ⟨true, false, none⟩ =
      ([.close (some ⟨"response already read", 2, []⟩)], ⟨true, false, none⟩) :=
  receive_when_closed_already_read
    ⟨"T", fun b => .ok b, fun _ => .error (), ⟨200, [], none⟩⟩ ⟨true, false, none⟩ rfl

/-- C7.  The request URL is the base URL with a trailing slash stripped,
then `/`, the service type name, `/` and the method name: a base URL not
ending in a slash is kept whole, and a base URL `c ++ "/"` contributes
`c`. -/
theorem createRequestUrl_spec (b s m : String) :
    (¬b.data.getLast? = some '/' → createRequestUrl b s m = b ++ "/" ++ s ++ "/" ++ m) ∧
    (∀ c : String, b = c ++ "/" → createRequestUrl b s m = c ++ "/" ++ s ++ "/" ++ m) := by
  constructor
  · intro hno
    unfold createRequestUrl
    rw [if_neg hno]
  · rintro c rfl
    unfold createRequestUrl
    have hdata : (c ++ "/").data = c.data ++ ['/'] := rfl
    rw [if_pos (by rw [hdata]; exact List.getLast?_concat _)]
    rw [hdata]
    have hlen : (c.data ++ ['/']).length - 1 = c.data.length := by
      simp
    rw [hlen, List.take_left]

/-- C7 witness: the theorem at a base URL without and with a trailing
slash. -/
theorem createRequestUrl_spec_witness :
    createRequestUrl "https://x.test/api" "p.S" "M" =
      "https://x.test/api" ++ "/" ++ "p.S" ++ "/" ++ "M" ∧
    createRequestUrl "https://x.test/api/" "p.S" "M" =
      "https://x.test/api" ++ "/" ++ "p.S" ++ "/" ++ "M" :=
  ⟨(createRequestUrl_spec "https://x.test/api" "p.S" "M").1 (by decide),
   (createRequestUrl_spec "https://x.test/api/" "p.S" "M").2 "https://x.test/api" rfl⟩

/-- C9.  A `receive` whose frame read yields a DATA frame that
deserializes delivers exactly one `on-message` — no `on-trailer`, no
`on-close` — and leaves `isRead` false with the reader advanced; the
trailer and the closing callback are delivered by the next `receive`,
which processes the following frame. -/
theorem receive_data_frame_one_step (ctx : CallContext) (buf : List Byte)
    (chunks : List (List Byte)) (payload buf' : List Byte) (chunks' : List (List Byte))
    (m : List Byte)
    (hrf : readFrame buf chunks = .ok (.data payload, buf', chunks'))
    (hfb : ctx.fromBinary payload = .ok m) :
    receive ctx ⟨false, false, some (buf, chunks)⟩ =
      ([.message m], ⟨false, false, some (buf', chunks')⟩) ∧
    ∀ tp buf2 chunks2, readFrame buf' chunks' = .ok (.trailer tp, buf2, chunks2) →
      receive ctx ⟨false, false, some (buf', chunks')⟩ =
        ([.trailer (parseTrailerFrame tp),
          .close (responseErrAtTrailer ctx.parseBin (parseTrailerFrame tp))],
         ⟨true, false, some (buf2, chunks2)⟩) := by
  constructor
  · show processFrame ctx [] buf chunks = _
    unfold processFrame
    rw [hrf]
    dsimp only
    rw [hfb]
    rfl
  · intro tp buf2 chunks2 htf
    show processFrame ctx [] buf' chunks' = _
    unfold processFrame
    rw [htf]
    rfl

/-- C9 witness: the theorem on a stream holding an empty DATA frame and
an empty trailer. -/
theorem receive_data_frame_one_step_witness :
    receive ⟨"T", fun b => .ok b, fun _ => .error (), ⟨200, [], none⟩⟩
        ⟨false, false, some ([0, 0, 0, 0, 0, 0x80, 0, 0, 0, 0], [])⟩ =
      ([.message []], ⟨false, false, some ([0x80, 0, 0, 0, 0], [])⟩) ∧
    receive ⟨"T", fun b => .ok b, fun _ => .error (), ⟨200, [], none⟩⟩
        ⟨false, false, some ([0x80, 0, 0, 0, 0], [])⟩ =
      ([.trailer [], .close none], ⟨true, false, some ([], [])⟩) :=
  ⟨(receive_data_frame_one_step ⟨"T", fun b => .ok b, fun _ => .error (), ⟨200, [], none⟩⟩
      [0, 0, 0, 0, 0, 0x80, 0, 0, 0, 0] [] [] [0x80, 0, 0, 0, 0] [] [] rfl rfl).1,
   (receive_data_frame_one_step ⟨"T", fun b => .ok b, fun _ => .error (), ⟨200, [], none⟩⟩
      [0, 0, 0, 0, 0, 0x80, 0, 0, 0, 0] [] [] [0x80, 0, 0, 0, 0] [] [] rfl rfl).2
      [] [] [] rfl⟩

/-- `headersGet` after `headersSet`: the set name now maps to the set
value, all other lookups are unchanged. -/
theorem headersGet_set (h : HeadersL) (n v name : String) :
    headersGet (headersSet h n v) name =
      if lowerStr name = lowerStr n then some v else headersGet h name := by
  unfold headersGet headersSet
  rw [List.filter_append]
  by_cases hc : lowerStr name = lowerStr n
  · rw [if_pos hc]
    have h2 : (h.filter fun p => ¬lowerStr p.1 = lowerStr n).filter
        (fun p => lowerStr p.1 = lowerStr name) = [] := by
      induction h with
      | nil => rfl
      | cons q t ih =>
        by_cases hq : lowerStr q.1 = lowerStr n
        · rw [List.filter_cons_of_neg (by simp [hq])]
          exact ih
        · rw [List.filter_cons_of_pos (by simp [hq]),
              List.filter_cons_of_neg (by simp [hc, hq])]
          exact ih
    rw [h2, List.filter_cons_of_pos (by simp [hc.symm])]
    rfl
  · rw [if_neg hc]
    have h3 : List.filter (fun p => decide (lowerStr p.1 = lowerStr name)) [(n, v)] = [] := by
      rw [List.filter_cons_of_neg (by simp; intro hh; exact hc hh.symm)]
      rfl
    rw [h3, List.append_nil]
    have h4 : (h.filter fun p => ¬lowerStr p.1 = lowerStr n).filter
        (fun p => lowerStr p.1 = lowerStr name) =
        h.filter (fun p => lowerStr p.1 = lowerStr name) := by
      induction h with
      | nil => rfl
      | cons q t ih =>
        by_cases hqn : lowerStr q.1 = lowerStr n
        · rw [List.filter_cons_of_neg (by simp [hqn]),
              List.filter_cons_of_neg (by simp; intro hh; exact hc (hh.symm.trans hqn))]
          exact ih
        · rw [List.filter_cons_of_pos (by simp [hqn])]
          by_cases hq : lowerStr q.1 = lowerStr name
          · rw [List.filter_cons_of_pos (by simp [hq]), List.filter_cons_of_pos (by simp [hq]), ih]
          · rw [List.filter_cons_of_neg (by simp [hq]), List.filter_cons_of_neg (by simp [hq])]
            exact ih
    rw [h4]


/-- `headersGet` after folding caller headers in with `set`: the last
matching caller value wins, otherwise the base map is untouched. -/
theorem headersGet_foldl_set (caller : HeadersL) (h : HeadersL) (name : String) :
    headersGet (caller.foldl (fun acc p => headersSet acc p.1 p.2) h) name =
      (match lastCallerValue caller name with
       | some v => some v
       | none => headersGet h name) := by
  induction caller generalizing h with
  | nil => rfl
  | cons p t ih =>
    rw [List.foldl_cons, ih]
    cases hl : lastCallerValue t name with
    | some v => rw [show lastCallerValue (p :: t) name = some v by
        unfold lastCallerValue; rw [hl]]
    | none =>
      rw [headersGet_set]
      by_cases hc : lowerStr p.1 = lowerStr name
      · rw [if_pos hc.symm, show lastCallerValue (p :: t) name = some p.2 by
          unfold lastCallerValue; rw [hl, if_pos hc]]
      · rw [if_neg (fun hh => hc hh.symm), show lastCallerValue (p :: t) name = none by
          unfold lastCallerValue; rw [hl, if_neg hc]]

/-- C10.  `grpc-timeout` is set after the caller's headers, so with a
timeout its value is always `<timeout>m`, whatever `grpc-timeout` the
caller supplied; every other name — the three unconditional defaults
included — ends up with the caller's (last) value when the caller
supplies one. -/
theorem createRequestHeaders_precedence (caller : HeadersL) (t : Nat)
    (tmo : Option Nat) (name v : String) :
    headersGet (createRequestHeaders caller (some t)) "grpc-timeout" =
      some (Nat.repr t ++ "m") ∧
    (lastCallerValue caller name = some v → ¬lowerStr name = lowerStr "grpc-timeout" →
      headersGet (createRequestHeaders caller tmo) name = some v) := by
  constructor
  · unfold createRequestHeaders
    dsimp only
    rw [headersGet_set, if_pos rfl]
  · intro hl hn
    unfold createRequestHeaders
    cases tmo with
    | none =>
      dsimp only
      rw [headersGet_foldl_set, hl]
    | some t2 =>
      dsimp only
      rw [headersGet_set, if_neg hn, headersGet_foldl_set, hl]

/-- C10 witness: a caller overriding both `Content-Type` and
`grpc-timeout`, with a 5 ms timeout set. -/
theorem createRequestHeaders_precedence_witness :
    headersGet (createRequestHeaders
        [("Content-Type", "text/html"), ("grpc-timeout", "9m")] (some 5))
        "grpc-timeout" = some "5m" ∧
    lastCallerValue [("Content-Type", "text/html"), ("grpc-timeout", "9m")]
        "content-type" = some "text/html" ∧
    headersGet (createRequestHeaders
        [("Content-Type", "text/html"), ("grpc-timeout", "9m")] (some 5))
        "content-type" = some "text/html" :=
  ⟨(createRequestHeaders_precedence
      [("Content-Type", "text/html"), ("grpc-timeout", "9m")] 5 (some 5)
      "content-type" "text/html").1,
   rfl,
   (createRequestHeaders_precedence
      [("Content-Type", "text/html"), ("grpc-timeout", "9m")] 5 (some 5)
      "content-type" "text/html").2 rfl (by decide)⟩



/-- Unfolding for one fueled driver step. -/
theorem drive_succ (ctx : CallContext) (st : RespState) (n : Nat) :
    drive ctx (n + 1) st =
      if (receive ctx st).2.isRead then ((receive ctx st).1, true)
      else ((receive ctx st).1 ++ (drive ctx n (receive ctx st).2).1,
            (drive ctx n (receive ctx st).2).2) := rfl

/-- `receive` on an open state with a constructed reader just processes
one frame. -/
theorem receive_open (ctx : CallContext) (buf : List Byte) (chunks : List (List Byte)) :
    receive ctx ⟨false, false, some (buf, chunks)⟩ = processFrame ctx [] buf chunks := rfl

/-- `receive` on the fresh state delivers the headers, then either closes
on a header-phase error or missing body, or processes the first frame. -/
theorem receive_init (ctx : CallContext) :
    receive ctx initState =
      match responseErrAtHeaders ctx.parseBin ctx.response with
      | some e => ([.header ctx.response.headers, .close (some e)], ⟨true, false, none⟩)
      | none =>
        match ctx.response.body with
        | none => ([.header ctx.response.headers,
            .close (some (connectErrorOfString "missing response body"))], ⟨true, false, none⟩)
        | some chunks => processFrame ctx [Event.header ctx.response.headers] [] chunks := rfl

/-- `midClose` steps over an `on-message`. -/
theorem midClose_message (m : List Byte) (rest : List Event) :
    midClose (Event.message m :: rest) = midClose rest := rfl

/-- Completed driver runs from an open state match `on-message*
on-trailer? on-close`. -/
theorem drive_open_midClose (ctx : CallContext) (fuel : Nat) :
    ∀ buf chunks, (drive ctx fuel ⟨false, false, some (buf, chunks)⟩).2 = true →
      midClose (drive ctx fuel ⟨false, false, some (buf, chunks)⟩).1 = true := by
  induction fuel with
  | zero => intro buf chunks h; exact absurd h (by simp [drive])
  | succ n ih =>
    intro buf chunks h
    cases hrf : readFrame buf chunks with
    | error e =>
      have hpf : receive ctx ⟨false, false, some (buf, chunks)⟩ =
          ([.close (some e)], ⟨true, false, some (buf, chunks)⟩) := by
        rw [receive_open]; unfold processFrame; rw [hrf]; rfl
      rw [drive_succ, hpf]
      rfl
    | ok r =>
      obtain ⟨fr, buf', chunks'⟩ := r
      cases fr with
      | data payload =>
        cases hfb : ctx.fromBinary payload with
        | ok m =>
          have hpf : receive ctx ⟨false, false, some (buf, chunks)⟩ =
              ([.message m], ⟨false, false, some (buf', chunks')⟩) := by
            rw [receive_open]; unfold processFrame; rw [hrf]; dsimp only; rw [hfb]; rfl
          rw [drive_succ, hpf] at h ⊢
          rw [if_neg Bool.false_ne_true] at h ⊢
          dsimp only at h ⊢
          rw [List.singleton_append, midClose_message]
          exact ih buf' chunks' h
        | error s =>
          have hpf : receive ctx ⟨false, false, some (buf, chunks)⟩ =
              ([.close (some (connectErrorOfString
                ("failed to deserialize message " ++ ctx.typeName ++ ": " ++ s)))],
               ⟨true, false, some (buf', chunks')⟩) := by
            rw [receive_open]; unfold processFrame; rw [hrf]; dsimp only; rw [hfb]; rfl
          rw [drive_succ, hpf]
          rfl
      | trailer payload =>
        have hpf : receive ctx ⟨false, false, some (buf, chunks)⟩ =
            ([.trailer (parseTrailerFrame payload),
              .close (responseErrAtTrailer ctx.parseBin (parseTrailerFrame payload))],
             ⟨true, false, some (buf', chunks')⟩) := by
          rw [receive_open]; unfold processFrame; rw [hrf]; rfl
        rw [drive_succ, hpf]
        rfl


/-- `matchesCallbackPattern` after the leading `on-header`. -/
theorem matchesCallbackPattern_header (hd : HeadersL) (rest : List Event) :
    matchesCallbackPattern (Event.header hd :: rest) = midClose rest := rfl

/-- C8 amended: every completed run matches
`on-header on-message* on-trailer? on-close`. -/
theorem runCall_matches_callback_pattern (ctx : CallContext) (fuel : Nat)
    (h : (runCall ctx fuel).2 = true) :
    matchesCallbackPattern (runCall ctx fuel).1 = true := by
  cases fuel with
  | zero => exact absurd h (by simp [runCall, drive])
  | succ n =>
    unfold runCall at h ⊢
    cases hE : responseErrAtHeaders ctx.parseBin ctx.response with
    | some e =>
      have hrc : receive ctx initState =
          ([.header ctx.response.headers, .close (some e)], ⟨true, false, none⟩) := by
        rw [receive_init, hE]
      rw [drive_succ, hrc]
      rfl
    | none =>
      cases hB : ctx.response.body with
      | none =>
        have hrc : receive ctx initState =
            ([.header ctx.response.headers,
              .close (some (connectErrorOfString "missing response body"))],
             ⟨true, false, none⟩) := by
          rw [receive_init, hE]
          dsimp only
          rw [hB]
        rw [drive_succ, hrc]
        rfl
      | some chunks =>
        have hrc0 : receive ctx initState =
            processFrame ctx [Event.header ctx.response.headers] [] chunks := by
          rw [receive_init, hE]
          dsimp only
          rw [hB]
        cases hrf : readFrame [] chunks with
        | error e =>
          have hrc : receive ctx initState =
              ([.header ctx.response.headers, .close (some e)],
               ⟨true, false, some ([], chunks)⟩) := by
            rw [hrc0]; unfold processFrame; rw [hrf]; rfl
          rw [drive_succ, hrc]
          rfl
        | ok r =>
          obtain ⟨fr, buf', chunks'⟩ := r
          cases fr with
          | data payload =>
            cases hfb : ctx.fromBinary payload with
            | ok m =>
              have hrc : receive ctx initState =
                  ([.header ctx.response.headers, .message m],
                   ⟨false, false, some (buf', chunks')⟩) := by
                rw [hrc0]; unfold processFrame; rw [hrf]; dsimp only; rw [hfb]; rfl
              rw [drive_succ, hrc] at h ⊢
              rw [if_neg Bool.false_ne_true] at h ⊢
              dsimp only at h ⊢
              rw [List.cons_append, List.singleton_append,
                matchesCallbackPattern_header, midClose_message]
              exact drive_open_midClose ctx n buf' chunks' h
            | error s =>
              have hrc : receive ctx initState =
                  ([.header ctx.response.headers,
                    .close (some (connectErrorOfString
                      ("failed to deserialize message " ++ ctx.typeName ++ ": " ++ s)))],
                   ⟨true, false, some (buf', chunks')⟩) := by
                rw [hrc0]; unfold processFrame; rw [hrf]; dsimp only; rw [hfb]; rfl
              rw [drive_succ, hrc]
              rfl
          | trailer payload =>
            have hrc : receive ctx initState =
                ([.header ctx.response.headers, .trailer (parseTrailerFrame payload),
                  .close (responseErrAtTrailer ctx.parseBin (parseTrailerFrame payload))],
                 ⟨true, false, some (buf', chunks')⟩) := by
              rw [hrc0]; unfold processFrame; rw [hrf]; rfl
            rw [drive_succ, hrc]
            rfl

/-- C8 counterexample.  A response stream holding two DATA frames before
the trailer produces `on-header on-message on-message on-trailer
on-close`: more than one `on-message`, refuting the claimed regular
expression `on-header on-message? on-trailer? on-close`. -/
theorem runCall_two_data_frames :
    (runCall ⟨"T", fun b => .ok b, fun _ => .error (),
        ⟨200, [], some [[0, 0, 0, 0, 0, 0, 0, 0, 0, 0, 0x80, 0, 0, 0, 0]]⟩⟩ 3).1 =
      [.header [], .message [], .message [], .trailer [], .close none] ∧
    (runCall ⟨"T", fun b => .ok b, fun _ => .error (),
        ⟨200, [], some [[0, 0, 0, 0, 0, 0, 0, 0, 0, 0, 0x80, 0, 0, 0, 0]]⟩⟩ 3).2 = true ∧
    matchesClaimedPattern (runCall ⟨"T", fun b => .ok b, fun _ => .error (),
        ⟨200, [], some [[0, 0, 0, 0, 0, 0, 0, 0, 0, 0, 0x80, 0, 0, 0, 0]]⟩⟩ 3).1 =
      false := ⟨rfl, rfl, rfl⟩

/-- C8 witness: the amended theorem on a completed happy-path run. -/
theorem runCall_matches_callback_pattern_witness :
    (runCall ⟨"T", fun b => .ok b, fun _ => .error (),
        ⟨200, [], some [[0, 0, 0, 0, 0, 0x80, 0, 0, 0, 0]]⟩⟩ 2).2 = true ∧
    matchesCallbackPattern (runCall ⟨"T", fun b => .ok b, fun _ => .error (),
        ⟨200, [], some [[0, 0, 0, 0, 0, 0x80, 0, 0, 0, 0]]⟩⟩ 2).1 = true :=
  ⟨rfl, runCall_matches_callback_pattern ⟨"T", fun b => .ok b, fun _ => .error (),
      ⟨200, [], some [[0, 0, 0, 0, 0, 0x80, 0, 0, 0, 0]]⟩⟩ 2 rfl⟩

end ConnectWeb
